import Mathlib

/-!
Shallow embedding of the build helper in `src/build.py` (a packaging script
that resolves a layered JSON configuration and assembles the argument list
for an external bundler), together with proofs about the claims on its
specification.

JSON values parsed by `json.load` are modelled by the inductive `JVal`;
Python dictionaries are association lists whose lookup is last-wins (the
behaviour of `json.load` on duplicate keys).  External processes (the
bundler, `security`, `codesign`) are modelled by explicit boolean/`Except`
parameters describing their exit status and captured output.
-/

namespace Build

/-- A JSON value as produced by Python's `json.load`. -/
inductive JVal where
  | null : JVal
  | bool : Bool → JVal
  | num : Int → JVal
  | str : String → JVal
  | arr : List JVal → JVal
  | obj : List (String × JVal) → JVal

/-- A Python dictionary holding JSON values (top-level or nested object). -/
abbrev Dict := List (String × JVal)

/-- Python `d.get(k)` / `d[k]` lookup.  The association list keeps insertion
order and a later binding of the same key wins, matching `json.load`. -/
def pyGet (d : Dict) (k : String) : Option JVal :=
  match d with
  | [] => none
  | (k₂, v) :: rest =>
    match pyGet rest k with
    | some w => some w
    | none => if k₂ = k then some v else none

/-- Python `{**b, **p}`: the keys of `b` in order with values overridden by
`p` where present, followed by the keys of `p` absent from `b`. -/
def pyMerge (b p : Dict) : Dict :=
  (b.map (fun kv =>
    match pyGet p kv.1 with
    | some v => (kv.1, v)
    | none => kv))
  ++ p.filter (fun kv => (pyGet b kv.1).isNone)

/-- Python truthiness of a JSON value (used by `config.get('console', False)`
and `config.get('uac_admin')` tests). -/
def pyTruthy : JVal → Bool
  | .null => false
  | .bool b => b
  | .num n => n ≠ 0
  | .str s => s ≠ ""
  | .arr xs => ¬ xs.isEmpty
  | .obj o => ¬ o.isEmpty

/-- Python `str()` of a JSON value, as used inside f-strings.  Scalars are
rendered exactly; containers are abbreviated (every claim below only ever
formats string-valued entries, so the container cases are never exercised). -/
def pyStr : JVal → String
  | .null => "None"
  | .bool b => if b then "True" else "False"
  | .num n => toString n
  | .str s => s
  | .arr _ => "[...]"
  | .obj _ => "\x7b...\x7d"

/-- The Python exceptions the embedded operations can raise. -/
inductive PyErr where
  | keyError : String → PyErr
  | typeError : PyErr
  | valueError : PyErr
  | attributeError : PyErr
  | parseError : PyErr
  deriving DecidableEq, Repr

/-- Python `d[k]`: raises `KeyError` when the key is absent. -/
def pyIndex (d : Dict) (k : String) : Except PyErr JVal :=
  match pyGet d k with
  | some v => .ok v
  | none => .error (.keyError k)

/-- Python iteration `for x in v`: lists yield their elements, strings yield
one-character strings, dictionaries yield their keys; other values raise
`TypeError`. -/
def pyIterList : JVal → Except PyErr (List JVal)
  | .arr xs => .ok xs
  | .str s => .ok (s.data.map (fun c => .str (String.mk [c])))
  | .obj o => .ok (o.map (fun kv => .str kv.1))
  | _ => .error .typeError

/-- Python unpacking `src, dst = v` of one element of `additional_data`. -/
def pyUnpack2 : JVal → Except PyErr (JVal × JVal)
  | .arr [a, b] => .ok (a, b)
  | .arr _ => .error .valueError
  | .str s =>
    match s.data with
    | [a, b] => .ok (.str (String.mk [a]), .str (String.mk [b]))
    | _ => .error .valueError
  | _ => .error .typeError

/-- Unpack every element of `additional_data` in order. -/
def unpackPairs : List JVal → Except PyErr (List (JVal × JVal))
  | [] => .ok []
  | x :: xs =>
    match pyUnpack2 x with
    | .error e => .error e
    | .ok p =>
      match unpackPairs xs with
      | .error e => .error e
      | .ok ps => .ok (p :: ps)

/-- Boolean test for the presence of a given string token in an argument
list (decidable stand-in for `JVal.str tok ∈ l`). -/
def hasTok (tok : String) (l : List JVal) : Bool :=
  l.any (fun v =>
    match v with
    | .str t => t == tok
    | _ => false)

theorem hasTok_iff_mem (tok : String) (l : List JVal) :
    hasTok tok l = true ↔ JVal.str tok ∈ l := by
  induction l with
  | nil => simp [hasTok]
  | cons hd tl ih =>
    unfold hasTok at ih ⊢
    rw [List.any_cons, Bool.or_eq_true, ih, List.mem_cons]
    cases hd with
    | str t =>
      show ((t == tok) = true ∨ JVal.str tok ∈ tl) ↔
        (JVal.str tok = JVal.str t ∨ JVal.str tok ∈ tl)
      rw [beq_iff_eq]
      constructor
      · rintro (rfl | h)
        · exact Or.inl rfl
        · exact Or.inr h
      · rintro (h | h)
        · injection h with h₂
          exact Or.inl h₂.symm
        · exact Or.inr h
    | null => simp
    | bool b => simp
    | num n => simp
    | arr xs => simp
    | obj o => simp

theorem pyGet_append (xs ys : Dict) (k : String) :
    pyGet (xs ++ ys) k =
      match pyGet ys k with
      | some w => some w
      | none => pyGet xs k := by
  induction xs with
  | nil =>
    simp only [List.nil_append]
    cases h : pyGet ys k <;> simp [pyGet]
  | cons hd tl ih =>
    obtain ⟨k₂, v⟩ := hd
    simp only [List.cons_append, pyGet, List.append_eq]
    rw [ih]
    cases h : pyGet ys k <;> cases htl : pyGet tl k <;> simp [htl]

theorem pyGet_filter_key (p : Dict) (q : String → Bool) (k : String) :
    pyGet (p.filter (fun kv => q kv.1)) k =
      if q k then pyGet p k else none := by
  induction p with
  | nil => simp [pyGet]
  | cons hd tl ih =>
    obtain ⟨k₂, v⟩ := hd
    simp only [List.filter_cons]
    by_cases hq2 : q k₂ <;> by_cases hk : k₂ = k <;>
      cases htl : pyGet tl k <;> by_cases hqk : q k <;>
        simp_all [pyGet]

theorem pyGet_map_override (b p : Dict) (k : String) :
    pyGet (b.map (fun kv =>
      match pyGet p kv.1 with
      | some v => (kv.1, v)
      | none => kv)) k =
      (pyGet b k).map (fun orig =>
        match pyGet p k with
        | some v => v
        | none => orig) := by
  induction b with
  | nil => simp [pyGet]
  | cons hd tl ih =>
    obtain ⟨k₂, v⟩ := hd
    by_cases hk : k₂ = k
    · subst hk
      cases hp : pyGet p k₂ <;>
        · simp only [List.map_cons, hp, pyGet, ih]
          cases htl : pyGet tl k₂ <;> simp [hp]
    · cases hp : pyGet p k₂ <;>
        · simp only [List.map_cons, hp, pyGet, ih]
          cases htl : pyGet tl k <;> simp [hk]

/-- Lookup in a Python merge `{**b, **p}`: the override wins, and a key
absent from the override keeps its base value. -/
theorem pyGet_pyMerge (b p : Dict) (k : String) :
    pyGet (pyMerge b p) k =
      match pyGet p k with
      | some v => some v
      | none => pyGet b k := by
  unfold pyMerge
  rw [pyGet_append, pyGet_filter_key p (fun s => (pyGet b s).isNone) k,
    pyGet_map_override]
  cases hb : pyGet b k <;> cases hp : pyGet p k <;> simp [hb, hp]

/-! ## PlatformConfig (src/build.py lines 25-51)

The host is identified by the value of Python's `sys.platform`, passed in
explicitly as a string parameter `sp`. -/

/-- `PlatformConfig.get_platform`: map `sys.platform` to one of the three
platform identifiers, defaulting to `"linux"`. -/
def get_platform (sp : String) : String :=
  if sp = "win32" then "windows"
  else if sp = "darwin" then "macos"
  else "linux"

/-- `PlatformConfig.get_executable_extension`. -/
def get_executable_extension (sp : String) : String :=
  if sp = "win32" then ".exe" else ""

/-- `PlatformConfig.get_icon_extension`. -/
def get_icon_extension (sp : String) : String :=
  if sp = "win32" then ".ico"
  else if sp = "darwin" then ".icns"
  else ".png"

/-! ## BuildConfig (src/build.py lines 53-111) -/

/-- The `base_config` literal of `BuildConfig._default_config`. -/
def base_config (sp : String) : Dict :=
  [("app_name", .str "YourApp"),
   ("version", .str "1.0.0"),
   ("main_script", .str "main.py"),
   ("build_dir", .str "build"),
   ("dist_dir", .str "dist"),
   ("additional_data", .arr []),
   ("hidden_imports", .arr []),
   ("exclude_modules", .arr []),
   ("icon_file", .str ("icons/app_icon" ++ get_icon_extension sp))]

/-- The `platform_configs` literal of `BuildConfig._default_config`. -/
def platform_configs : List (String × Dict) :=
  [("windows",
    [("console", .bool false),
     ("admin_access", .bool false),
     ("uac_admin", .bool false),
     ("version_file", .str "version.txt")]),
   ("macos",
    [("bundle_identifier", .str "com.example.yourapp"),
     ("entitlements_file", .str "entitlements.plist"),
     ("info_plist", .str "Info.plist")]),
   ("linux",
    [("console", .bool false),
     ("desktop_file", .str "app.desktop"),
     ("categories", .str "Utility;")])]

/-- `platform_configs.get(self.platform, {})`. -/
def platform_overlay (sp : String) : Dict :=
  ((platform_configs.find? (fun e => e.1 = get_platform sp)).map (·.2)).getD []

/-- `BuildConfig._default_config`. -/
def _default_config (sp : String) : Dict :=
  pyMerge (base_config sp) (platform_overlay sp)

/-- The state of the configuration file at `self.config_file`, as seen by
`BuildConfig._load_config`: absent (`os.path.exists` false), present but not
well-formed JSON (`json.load` raises), or present and parsed to a top-level
object. -/
inductive ConfigFile where
  | absent : ConfigFile
  | invalid : ConfigFile
  | valid : Dict → ConfigFile

/-- `config.get(k, {})` followed by use as a mapping in `{**b, **p}`: a
missing section defaults to the empty dict, a non-object section raises
`TypeError` when splatted. -/
def sectionOf (doc : Dict) (k : String) : Except PyErr Dict :=
  match pyGet doc k with
  | none => .ok []
  | some (.obj o) => .ok o
  | some _ => .error .typeError

/-- `BuildConfig._load_config`: if the file exists, parse it and merge the
base section with the current platform's section; a parse failure
propagates; if the file is absent, return the built-in defaults. -/
def _load_config (sp : String) (file : ConfigFile) : Except PyErr Dict :=
  match file with
  | .absent => .ok (_default_config sp)
  | .invalid => .error .parseError
  | .valid doc =>
    match sectionOf doc (get_platform sp) with
    | .error e => .error e
    | .ok platform_config =>
      match sectionOf doc "base" with
      | .error e => .error e
      | .ok bc => .ok (pyMerge bc platform_config)

/-- `BuildConfig.save`: `json.dump(self.config, f)` writes the current
(already platform-merged, flat) configuration to the file; re-reading the
file parses back to exactly that top-level object. -/
def save (cfg : Dict) : ConfigFile :=
  ConfigFile.valid cfg

/-! ## WindowsBuilder (src/build.py lines 113-166) -/

/-- Helper for Python `str.split(sep)` with a one-character separator:
accumulates the current field and starts a new one at each separator. -/
def splitCharsAux (sep : Char) (acc : List Char) : List Char → List String
  | [] => [String.mk acc]
  | c :: rest =>
    if c = sep then String.mk acc :: splitCharsAux sep [] rest
    else splitCharsAux sep (acc ++ [c]) rest

/-- Python `version.split('.')` (so `"".split('.') == ['']`,
`"a..b".split('.') == ['a', '', 'b']`). -/
def pySplitDot (s : String) : List String :=
  splitCharsAux '.' [] s.data

/-- `config['version'].split('.')` followed by the padding loop
`while len(version_parts) < 4: version_parts.append('0')`. -/
def version_parts (version : String) : List String :=
  let parts := pySplitDot version
  parts ++ List.replicate (4 - parts.length) "0"

/-- `version_tuple = ','.join(version_parts)`. -/
def version_tuple (version : String) : String :=
  String.intercalate "," (version_parts version)

/-- `company.get(key, default)` rendered with `str()` for the f-string. -/
def companyField (company : Dict) (k : String) (dflt : String) : String :=
  match pyGet company k with
  | some v => pyStr v
  | none => dflt

/-- `WindowsBuilder.create_version_info`: renders the VSVersionInfo
descriptor and writes it to `version_info.txt`, returning that path.  The
result is the pair (returned path, file content).  Evaluation order of the
Python source is kept: `config['version']` is read first, then
`config['app_name']` (eagerly, as the default argument of
`company.get('description', ...)`). -/
def create_version_info (cfg : Dict) : Except PyErr (String × String) :=
  match pyIndex cfg "version" with
  | .error e => .error e
  | .ok ver =>
    match ver with
    | .str version =>
      let vt := version_tuple version
      let company : Dict :=
        match pyGet cfg "company" with
        | some (.obj o) => o
        | _ => []
      match pyIndex cfg "app_name" with
      | .error e => .error e
      | .ok appName =>
        let company_name := companyField company "name" "Unknown Company"
        let copyright_info :=
          companyField company "copyright" ("Copyright (c) " ++ company_name)
        let description := companyField company "description" (pyStr appName)
        let product_name := companyField company "product_name" (pyStr appName)
        let trademark := companyField company "trademark" company_name
        let content :=
          "\nVSVersionInfo(\n  ffi=FixedFileInfo(\n    filevers=(" ++ vt
          ++ "),\n    prodvers=(" ++ vt
          ++ "),\n    mask=0x3f,\n    flags=0x0,\n    OS=0x40004,\n"
          ++ "    fileType=0x1,\n    subtype=0x0,\n    date=(0, 0)\n  ),\n"
          ++ "  kids=[\n    StringFileInfo([\n      StringTable(\n"
          ++ "        u\x27040904B0\x27,\n        [StringStruct(u\x27CompanyName\x27, u\x27"
          ++ company_name
          ++ "\x27),\n         StringStruct(u\x27FileDescription\x27, u\x27"
          ++ description
          ++ "\x27),\n         StringStruct(u\x27FileVersion\x27, u\x27"
          ++ version
          ++ "\x27),\n         StringStruct(u\x27InternalName\x27, u\x27"
          ++ pyStr appName
          ++ "\x27),\n         StringStruct(u\x27LegalCopyright\x27, u\x27"
          ++ copyright_info
          ++ "\x27),\n         StringStruct(u\x27LegalTrademarks\x27, u\x27"
          ++ trademark
          ++ "\x27),\n         StringStruct(u\x27OriginalFilename\x27, u\x27"
          ++ pyStr appName
          ++ ".exe\x27),\n         StringStruct(u\x27ProductName\x27, u\x27"
          ++ product_name
          ++ "\x27),\n         StringStruct(u\x27ProductVersion\x27, u\x27"
          ++ version
          ++ "\x27)]\n      )\n    ]),\n"
          ++ "    VarFileInfo([VarStruct(u\x27Translation\x27, [1033, 1200])])\n  ]\n)\n"
        .ok ("version_info.txt", content)
    | _ => .error .attributeError

/-! ## LinuxBuilder (src/build.py lines 168-186) -/

/-- `LinuxBuilder.create_desktop_file`: renders the desktop entry and writes
it to `<build_dir>/<app_name>.desktop`; the result is (path, content).
Key lookups happen in the order the f-strings evaluate them: `app_name`,
then `version`, then `build_dir`. -/
def create_desktop_file (cfg : Dict) : Except PyErr (String × String) :=
  match pyIndex cfg "app_name" with
  | .error e => .error e
  | .ok appName =>
    match pyIndex cfg "version" with
    | .error e => .error e
    | .ok ver =>
      let categories :=
        match pyGet cfg "categories" with
        | some v => pyStr v
        | none => "Utility;"
      let content :=
        "[Desktop Entry]\nName=" ++ pyStr appName
        ++ "\nExec=" ++ pyStr appName
        ++ "\nIcon=" ++ pyStr appName
        ++ "\nType=Application\nCategories=" ++ categories
        ++ "\nVersion=" ++ pyStr ver ++ "\n"
      match pyIndex cfg "build_dir" with
      | .error e => .error e
      | .ok bd =>
        .ok (pyStr bd ++ "/" ++ pyStr appName ++ ".desktop", content)

/-! ## MacOSBuilder (src/build.py lines 188-254)

The `security find-identity -v -p codesigning` invocation is modelled by a
value of type `Except Unit (List String)`: `.error ()` is a
`CalledProcessError` (non-zero exit), `.ok lines` is
`result.stdout.splitlines()`. -/

/-- Whether `needle` is a leading segment of the character list. -/
def startsWithB : List Char → List Char → Bool
  | [], _ => true
  | _ :: _, [] => false
  | a :: as, b :: bs => a == b && startsWithB as bs

/-- Whether `needle` occurs contiguously anywhere in the character list. -/
def containsSeq (needle : List Char) : List Char → Bool
  | [] => needle.isEmpty
  | c :: rest => startsWithB needle (c :: rest) || containsSeq needle rest

/-- Python `needle in haystack` on strings. -/
def substrB (needle hay : String) : Bool :=
  containsSeq needle.data hay.data

/-- A character the regex class `[A-F0-9]` accepts. -/
def isHexUp (c : Char) : Bool :=
  (65 ≤ c.toNat && c.toNat ≤ 70) || (48 ≤ c.toNat && c.toNat ≤ 57)

/-- `re.search(r'([A-F0-9]{40})', line)`: the leftmost run of 40 characters
from `[A-F0-9]`, if any. -/
def findHex40 (cs : List Char) : Option (List Char) :=
  match cs with
  | [] => none
  | _ :: rest =>
    let pre := cs.take 40
    if pre.length == 40 && pre.all isHexUp then some pre
    else findHex40 rest

/-- The keys of the `identities` dict, in insertion (priority) order. -/
def identityLabels : List String :=
  ["Developer ID Application",
   "Apple Development",
   "3rd Party Mac Developer Application",
   "Mac Developer"]

/-- One iteration of the inner loop `for identity in identities.keys()` over
one output line: the first label (in priority order) contained in the line
whose regex search succeeds is assigned the extracted hash, and the loop
breaks; a label contained in the line without a regex match assigns nothing
and the loop continues. -/
def updateFirstLabel (line : String) :
    List (String × Option String) → List (String × Option String)
  | [] => []
  | (l, v) :: rest =>
    if substrB l line then
      match findHex40 line.data with
      | some h => (l, some (String.mk h)) :: rest
      | none => (l, v) :: updateFirstLabel line rest
    else (l, v) :: updateFirstLabel line rest

/-- The state of the `identities` dict after the outer loop
`for line in result.stdout.splitlines()`. -/
def scanIdentities (lines : List String) : List (String × Option String) :=
  lines.foldl (fun ids line => updateFirstLabel line ids)
    (identityLabels.map (fun l => (l, none)))

/-- `MacOSBuilder.get_signing_identity`: returns the first non-None hash in
priority order, `"-"` if none, and `"-"` when the `security` call fails. -/
def get_signing_identity (res : Except Unit (List String)) : String :=
  match res with
  | .error _ => "-"
  | .ok lines =>
    match (scanIdentities lines).findSome? (fun p => p.2) with
    | some h => h
    | none => "-"

/-- `MacOSBuilder.sign_app`: resolves the identity, reads
`config['entitlements_file']` (a `KeyError` there is not caught by the
`except subprocess.CalledProcessError` handler and propagates), then runs
`codesign` and the verification; a `CalledProcessError` from either is
caught and turned into `False`. -/
def sign_app (cfg : Dict) (identRes : Except Unit (List String))
    (codesignOk verifyOk : Bool) : Except PyErr Bool :=
  let _identity := get_signing_identity identRes
  match pyIndex cfg "entitlements_file" with
  | .error e => .error e
  | .ok _ => .ok (codesignOk && verifyOk)

/-! ## AppBuilder (src/build.py lines 256-348) -/

/-- `os.pathsep` on the host: `';'` on Windows, `':'` elsewhere. -/
def os_pathsep (sp : String) : String :=
  if sp = "win32" then ";" else ":"

/-- `config.get('uac_admin')` tested for truthiness (default `None`). -/
def pyTruthyOpt : Option JVal → Bool
  | none => false
  | some v => pyTruthy v

/-- `AppBuilder.prepare_platform_specific`: on windows, create the version
info file and add `--version-file` (plus `--uac-admin` when configured); on
linux, create the desktop file (its path is unused); on macos, nothing. -/
def prepare_platform_specific (sp : String) (cfg : Dict) :
    Except PyErr (List JVal) :=
  if get_platform sp = "windows" then
    match create_version_info cfg with
    | .error e => .error e
    | .ok vf =>
      .ok ([.str "--version-file", .str vf.1]
        ++ (if pyTruthyOpt (pyGet cfg "uac_admin") then [.str "--uac-admin"]
            else []))
  else if get_platform sp = "linux" then
    match create_desktop_file cfg with
    | .error e => .error e
    | .ok _ => .ok []
  else
    .ok []

/-- The PyInstaller argument list assembled by `AppBuilder.build`
(src/build.py lines 298-331), before the external invocation.  Only a
`CalledProcessError` is caught by `build`, so every `KeyError` (and any
`TypeError` from iterating a non-list) escapes as `.error`. -/
def assembleCmd (sp : String) (cfg : Dict) : Except PyErr (List JVal) :=
  match pyIndex cfg "app_name" with
  | .error e => .error e
  | .ok appName =>
    let cmd : List JVal :=
      [.str "pyinstaller", .str "--name", appName, .str "--noconfirm",
       .str "--clean"]
    let cmd := cmd ++
      (if (get_platform sp = "windows" ∨ get_platform sp = "macos")
          ∧ pyTruthy ((pyGet cfg "console").getD (.bool false)) = false
       then [.str "--windowed"] else [])
    let cmd := cmd ++
      (match pyGet cfg "icon_file" with
       | some v => [.str "--icon", v]
       | none => [])
    match prepare_platform_specific sp cfg with
    | .error e => .error e
    | .ok extra =>
      let cmd := cmd ++ extra
      let cmd := cmd ++
        (if get_platform sp = "macos" then
          match pyGet cfg "bundle_identifier" with
          | some v => [.str "--osx-bundle-identifier", v]
          | none => []
         else [])
      match pyIndex cfg "hidden_imports" with
      | .error e => .error e
      | .ok hi =>
        match pyIterList hi with
        | .error e => .error e
        | .ok imps =>
          let cmd := cmd ++
            imps.foldr (fun imp acc => .str "--hidden-import" :: imp :: acc) []
          match pyIndex cfg "additional_data" with
          | .error e => .error e
          | .ok ad =>
            match pyIterList ad with
            | .error e => .error e
            | .ok items =>
              match unpackPairs items with
              | .error e => .error e
              | .ok pairs =>
                let cmd := cmd ++
                  pairs.foldr (fun sd acc =>
                    .str "--add-data"
                    :: .str (pyStr sd.1 ++ os_pathsep sp ++ pyStr sd.2)
                    :: acc) []
                match pyIndex cfg "main_script" with
                | .error e => .error e
                | .ok ms => .ok (cmd ++ [ms])

/-- `AppBuilder.build`: assemble the argument list, run PyInstaller
(`bundlerOk` is its exit status; a non-zero exit is the only exception the
`except subprocess.CalledProcessError` clause converts into `False`), and
on macos compute the bundle path (`config['dist_dir']`,
`config['app_name']`) and call `sign_app`, discarding its boolean result. -/
def build (sp : String) (cfg : Dict) (identRes : Except Unit (List String))
    (bundlerOk codesignOk verifyOk : Bool) : Except PyErr Bool :=
  match assembleCmd sp cfg with
  | .error e => .error e
  | .ok _cmd =>
    if bundlerOk then
      if get_platform sp = "macos" then
        match pyIndex cfg "dist_dir" with
        | .error e => .error e
        | .ok _ =>
          match pyIndex cfg "app_name" with
          | .error e => .error e
          | .ok _ =>
            match sign_app cfg identRes codesignOk verifyOk with
            | .error e => .error e
            | .ok _ => .ok true
      else .ok true
    else .ok false

/-! ## Helper lemmas -/

theorem get_platform_cases (sp : String) :
    get_platform sp = "windows" ∨ get_platform sp = "macos"
      ∨ get_platform sp = "linux" := by
  unfold get_platform
  by_cases h1 : sp = "win32" <;> by_cases h2 : sp = "darwin" <;> simp [h1, h2]

theorem platform_overlay_cases (sp : String) :
    platform_overlay sp =
      [("console", .bool false), ("admin_access", .bool false),
       ("uac_admin", .bool false), ("version_file", .str "version.txt")] ∨
    platform_overlay sp =
      [("bundle_identifier", .str "com.example.yourapp"),
       ("entitlements_file", .str "entitlements.plist"),
       ("info_plist", .str "Info.plist")] ∨
    platform_overlay sp =
      [("console", .bool false), ("desktop_file", .str "app.desktop"),
       ("categories", .str "Utility;")] := by
  by_cases h1 : sp = "win32"
  · left
    unfold platform_overlay get_platform
    rw [if_pos h1]
    rfl
  · by_cases h2 : sp = "darwin"
    · right; left
      unfold platform_overlay get_platform
      rw [if_neg h1, if_pos h2]
      rfl
    · right; right
      unfold platform_overlay get_platform
      rw [if_neg h1, if_neg h2]
      rfl

/-! ## Claim theorems -/

/-- Claim C1 (code-bug exhibit): `save` writes the already-merged flat
configuration; resolving that document finds neither a `base` nor a
`linux` section, so it returns the empty mapping — the saved effective
configuration (which maps `app_name` to `"YourApp"`) is not reproduced.
`save` followed by `resolve` does not round-trip. -/
theorem save_then_resolve_collapses :
    _load_config "linux" (save (_default_config "linux")) = .ok [] ∧
    pyGet (_default_config "linux") "app_name" = some (.str "YourApp") ∧
    _load_config "linux" (save (_default_config "linux"))
      ≠ .ok (_default_config "linux") := by
  refine ⟨rfl, rfl, ?_⟩
  intro h
  have h₂ : ([] : Dict) = _default_config "linux" :=
    Except.ok.inj
      ((rfl :
        _load_config "linux" (save (_default_config "linux")) = .ok []).symm.trans
        h)
  have h₃ : (0 : Nat) = (_default_config "linux").length :=
    congrArg List.length h₂
  rw [show (_default_config "linux").length = 12 from rfl] at h₃
  exact absurd h₃ (by decide)

/-- Claim C2 (counterexample): version normalization never fails.  A
five-component string keeps all five components and the version-resource
artifact is still generated; a non-numeric component is passed through
verbatim and the artifact is still generated.  No `VersionFormatError`
exists in the code. -/
theorem version_norm_counterexample :
    version_parts "1.2.3.4.5" = ["1", "2", "3", "4", "5"] ∧
    version_tuple "1.2.3.4.5" = "1,2,3,4,5" ∧
    version_parts "1.a.0" = ["1", "a", "0", "0"] ∧
    (create_version_info
      [("version", .str "1.2.3.4.5"), ("app_name", .str "App")]).toOption.isSome
      = true ∧
    (create_version_info
      [("version", .str "1.a.0"), ("app_name", .str "App")]).toOption.isSome
      = true :=
  ⟨rfl, rfl, rfl, rfl, rfl⟩

/-- Claim C2 (amended): version normalization pads a version string with
fewer than four dot-separated components with `"0"` up to exactly four
(`"1.2"` becomes `1,2,0,0`; `"1.2.3.4"` is unchanged), but strings with
more than four components are passed through unchanged rather than
rejected, and non-numeric components are not detected: version-info
generation succeeds for every version string. -/
theorem version_parts_pads_rejects_nothing (v : String) :
    ((pySplitDot v).length ≤ 4 →
      version_parts v =
        pySplitDot v ++ List.replicate (4 - (pySplitDot v).length) "0" ∧
      (version_parts v).length = 4) ∧
    (4 ≤ (pySplitDot v).length → version_parts v = pySplitDot v) ∧
    (create_version_info
      [("version", .str v), ("app_name", .str "App")]).toOption.isSome
      = true := by
  refine ⟨fun h => ⟨rfl, ?_⟩, fun h => ?_, rfl⟩
  · simp only [version_parts, List.length_append, List.length_replicate]
    omega
  · have h₄ : 4 - (pySplitDot v).length = 0 := by omega
    simp [version_parts, h₄]

/-- Witness for `version_parts_pads_rejects_nothing` at `"1.2"` and
`"1.2.3.4.5"`. -/
theorem version_parts_pads_witness :
    version_parts "1.2" = ["1", "2", "0", "0"] ∧
    version_parts "1.2.3.4.5" = pySplitDot "1.2.3.4.5" := by
  constructor
  · rw [((version_parts_pads_rejects_nothing "1.2").1 (by decide)).1]
    decide
  · exact (version_parts_pads_rejects_nothing "1.2.3.4.5").2.1 (by decide)

/-- Claim C3: on a linux host, resolving a document with `base` and `linux`
sections yields their shallow merge: every base key is present, a key also
in the linux section takes the linux value, and every other base key keeps
its base value. -/
theorem resolve_linux_merges_base_with_overlay (sp : String) (doc b l : Dict)
    (hsp : get_platform sp = "linux")
    (hb : pyGet doc "base" = some (.obj b))
    (hl : pyGet doc "linux" = some (.obj l)) :
    _load_config sp (.valid doc) = .ok (pyMerge b l) ∧
    (∀ k, (pyGet b k).isSome = true → (pyGet (pyMerge b l) k).isSome = true) ∧
    (∀ k w, pyGet l k = some w → pyGet (pyMerge b l) k = some w) ∧
    (∀ k v, pyGet b k = some v → pyGet l k = none →
      pyGet (pyMerge b l) k = some v) := by
  refine ⟨?_, ?_, ?_, ?_⟩
  · unfold _load_config
    rw [hsp]
    simp [sectionOf, hb, hl]
  · intro k hk
    rw [pyGet_pyMerge]
    cases hlk : pyGet l k <;> simp [hk]
  · intro k w hw
    rw [pyGet_pyMerge, hw]
  · intro k v hbv hlk
    rw [pyGet_pyMerge, hlk, hbv]

/-- Witness for `resolve_linux_merges_base_with_overlay` on a concrete
document. -/
theorem resolve_linux_merges_witness :
    _load_config "linux"
      (.valid [("base", .obj [("a", .str "x"), ("c", .str "y")]),
               ("linux", .obj [("c", .str "z")])])
      = .ok (pyMerge [("a", .str "x"), ("c", .str "y")] [("c", .str "z")]) ∧
    pyGet (pyMerge [("a", .str "x"), ("c", .str "y")] [("c", .str "z")]) "c"
      = some (.str "z") ∧
    pyGet (pyMerge [("a", .str "x"), ("c", .str "y")] [("c", .str "z")]) "a"
      = some (.str "x") := by
  obtain ⟨h1, _h2, h3, h4⟩ :=
    resolve_linux_merges_base_with_overlay "linux"
      [("base", .obj [("a", .str "x"), ("c", .str "y")]),
       ("linux", .obj [("c", .str "z")])]
      [("a", .str "x"), ("c", .str "y")] [("c", .str "z")] rfl rfl rfl
  exact ⟨h1, h3 "c" (.str "z") rfl, h4 "a" (.str "x") rfl rfl⟩

/-- Claim C5: a present-but-malformed configuration file makes `resolve`
fail with the parse error (it never returns a configuration), while an
absent file yields the built-in defaults — the two cases are
distinguished. -/
theorem malformed_config_propagates (sp : String) :
    _load_config sp .invalid = .error .parseError ∧
    (_load_config sp .invalid).toOption = none ∧
    _load_config sp .absent = .ok (_default_config sp) :=
  ⟨rfl, rfl, rfl⟩

/-- Claim C6: resolving with no configuration file present returns the
fixed built-in defaults for the detected platform: the base mapping (app
name `"YourApp"`, version `"1.0.0"`, …) merged with the fixed per-platform
overlay — every base key survives the merge and every overlay entry is
present; the result is a pure function of the platform (deterministic). -/
theorem resolve_absent_defaults (sp : String) :
    _load_config sp .absent = .ok (_default_config sp) ∧
    pyGet (_default_config sp) "app_name" = some (.str "YourApp") ∧
    pyGet (_default_config sp) "version" = some (.str "1.0.0") ∧
    (∀ k, (pyGet (base_config sp) k).isSome = true →
      (pyGet (_default_config sp) k).isSome = true) ∧
    (∀ k v, pyGet (platform_overlay sp) k = some v →
      pyGet (_default_config sp) k = some v) := by
  refine ⟨rfl, ?_, ?_, ?_, ?_⟩
  · unfold _default_config
    rw [pyGet_pyMerge]
    rcases platform_overlay_cases sp with h | h | h <;> rw [h] <;> rfl
  · unfold _default_config
    rw [pyGet_pyMerge]
    rcases platform_overlay_cases sp with h | h | h <;> rw [h] <;> rfl
  · intro k hk
    unfold _default_config
    rw [pyGet_pyMerge]
    cases ho : pyGet (platform_overlay sp) k <;> simp [hk]
  · intro k v hv
    unfold _default_config
    rw [pyGet_pyMerge, hv]

/-- Witness for `resolve_absent_defaults` on a linux host. -/
theorem resolve_absent_defaults_witness :
    pyGet (_default_config "linux") "app_name" = some (.str "YourApp") ∧
    (pyGet (_default_config "linux") "main_script").isSome = true ∧
    pyGet (_default_config "linux") "categories" = some (.str "Utility;") := by
  obtain ⟨_h1, h2, _h3, h4, h5⟩ := resolve_absent_defaults "linux"
  exact ⟨h2, h4 "main_script" rfl, h5 "categories" (.str "Utility;") rfl⟩

/-- Claim C9: the result of `resolve` depends only on the `base` section
and the section named after the current platform: documents agreeing on
those two sections resolve identically, whatever other sections they
carry. -/
theorem resolve_ignores_other_sections (sp : String) (d₁ d₂ : Dict)
    (hb : pyGet d₁ "base" = pyGet d₂ "base")
    (hp : pyGet d₁ (get_platform sp) = pyGet d₂ (get_platform sp)) :
    _load_config sp (.valid d₁) = _load_config sp (.valid d₂) := by
  simp only [_load_config, sectionOf, hb, hp]

/-- Witness for `resolve_ignores_other_sections`: two documents differing
only in a `windows` section (and an extra top-level key) resolve to the
same configuration on a linux host. -/
theorem resolve_ignores_other_sections_witness :
    _load_config "linux"
      (.valid [("base", .obj [("a", .str "x")]),
               ("windows", .obj [("q", .str "1")])])
      = _load_config "linux"
        (.valid [("base", .obj [("a", .str "x")]),
                 ("windows", .obj [("q", .str "2")]), ("extra", .num 3)]) :=
  resolve_ignores_other_sections "linux"
    [("base", .obj [("a", .str "x")]), ("windows", .obj [("q", .str "1")])]
    [("base", .obj [("a", .str "x")]), ("windows", .obj [("q", .str "2")]),
     ("extra", .num 3)] rfl rfl

/-- A configuration equal to `d` with every binding of key `k` removed. -/
def removeKey (d : Dict) (k : String) : Dict :=
  d.filter (fun kv => kv.1 ≠ k)

/-- Claim C8: on macOS a signing failure does not change the overall build
result: `build` discards the boolean returned by `sign_app`, so its result
is independent of the codesign and verification outcomes, and with a
successful bundler run it returns `True` even when both signing steps
fail. -/
theorem signing_failure_ignored :
    (∀ sp cfg identRes bOk cs vf cs₂ vf₂,
      build sp cfg identRes bOk cs vf = build sp cfg identRes bOk cs₂ vf₂) ∧
    build "darwin" (_default_config "darwin") (.error ()) true false false
      = .ok true := by
  constructor
  · intro sp cfg identRes bOk cs vf cs₂ vf₂
    unfold build sign_app
    cases hA : assembleCmd sp cfg <;> simp
    cases bOk <;> simp
    by_cases hm : get_platform sp = "macos" <;> simp [hm]
    cases hD : pyIndex cfg "dist_dir" <;> simp
    cases hN : pyIndex cfg "app_name" <;> simp
    cases hE : pyIndex cfg "entitlements_file" <;> simp
  · rfl

/-- Claim C10: `build` converts only a bundler failure (non-zero exit of
the external process) into the return value `False`; a resolved
configuration missing `app_name`, `hidden_imports`, `additional_data` or
`main_script` makes `build` raise an uncaught `KeyError` instead of
returning `False`. -/
theorem build_false_only_for_bundler_failure :
    (∀ sp cfg identRes bOk cs vf,
      build sp cfg identRes bOk cs vf = .ok false → bOk = false) ∧
    build "linux" (removeKey (_default_config "linux") "app_name")
      (.error ()) true true true = .error (.keyError "app_name") ∧
    build "linux" (removeKey (_default_config "linux") "hidden_imports")
      (.error ()) true true true = .error (.keyError "hidden_imports") ∧
    build "linux" (removeKey (_default_config "linux") "additional_data")
      (.error ()) true true true = .error (.keyError "additional_data") ∧
    build "linux" (removeKey (_default_config "linux") "main_script")
      (.error ()) true true true = .error (.keyError "main_script") := by
  refine ⟨?_, rfl, rfl, rfl, rfl⟩
  intro sp cfg identRes bOk cs vf h
  cases bOk
  · rfl
  · exfalso
    unfold build at h
    rcases hA : assembleCmd sp cfg with e | cmd <;> rw [hA] at h
    · exact Except.noConfusion h
    · simp only [if_true] at h
      by_cases hm : get_platform sp = "macos"
      · rw [if_pos hm] at h
        rcases hD : pyIndex cfg "dist_dir" with e | dd <;> rw [hD] at h
        · exact Except.noConfusion h
        · rcases hN : pyIndex cfg "app_name" with e | nn <;> rw [hN] at h
          · exact Except.noConfusion h
          · rcases hS : sign_app cfg identRes cs vf with e | sb <;> rw [hS] at h
            · exact Except.noConfusion h
            · exact Bool.noConfusion (Except.ok.inj h)
      · rw [if_neg hm] at h
        exact Bool.noConfusion (Except.ok.inj h)

/-- Witness for `build_false_only_for_bundler_failure`: a concrete build
whose bundler fails returns `False`. -/
theorem build_false_only_witness :
    build "linux" (_default_config "linux") (.error ()) false true true
      = .ok false ∧ (false = false) := by
  refine ⟨rfl, ?_⟩
  exact build_false_only_for_bundler_failure.1 "linux" (_default_config "linux")
    (.error ()) false true true rfl

theorem pyIndex_ok_iff (d : Dict) (k : String) (v : JVal) :
    pyIndex d k = .ok v ↔ pyGet d k = some v := by
  unfold pyIndex
  cases h : pyGet d k <;> simp

theorem sep_append_ne (a b : String) (sp : String) :
    a ++ os_pathsep sp ++ b ≠ "--windowed" := by
  intro h
  have h₃ : (a ++ os_pathsep sp ++ b).data = "--windowed".data :=
    congrArg String.data h
  rw [show (a ++ os_pathsep sp ++ b).data
      = a.data ++ (os_pathsep sp).data ++ b.data from rfl] at h₃
  unfold os_pathsep at h₃
  by_cases hsp : sp = "win32"
  · rw [if_pos hsp] at h₃
    have hmem : (';' : Char) ∈ a.data ++ (";" : String).data ++ b.data := by
      rw [show (";" : String).data = [';'] from rfl]
      simp
    rw [h₃] at hmem
    exact absurd hmem (by decide)
  · rw [if_neg hsp] at h₃
    have hmem : (':' : Char) ∈ a.data ++ (":" : String).data ++ b.data := by
      rw [show (":" : String).data = [':'] from rfl]
      simp
    rw [h₃] at hmem
    exact absurd hmem (by decide)

theorem create_version_info_path (cfg : Dict) (out : String × String)
    (h : create_version_info cfg = .ok out) : out.1 = "version_info.txt" := by
  unfold create_version_info at h
  rcases hv : pyIndex cfg "version" with e | ver <;> rw [hv] at h
  · exact Except.noConfusion h
  · cases ver with
    | str version =>
      rcases ha : pyIndex cfg "app_name" with e | appName <;> rw [ha] at h
      · exact Except.noConfusion h
      · rw [← Except.ok.inj h]
    | null => exact Except.noConfusion h
    | bool b => exact Except.noConfusion h
    | num n => exact Except.noConfusion h
    | arr xs => exact Except.noConfusion h
    | obj o => exact Except.noConfusion h

theorem prepare_no_windowed (sp : String) (cfg : Dict) (extra : List JVal)
    (h : prepare_platform_specific sp cfg = .ok extra) :
    JVal.str "--windowed" ∉ extra := by
  unfold prepare_platform_specific at h
  by_cases hw : get_platform sp = "windows"
  · rw [if_pos hw] at h
    rcases hV : create_version_info cfg with e | vf <;> rw [hV] at h
    · exact Except.noConfusion h
    · have hpath : vf.1 = "version_info.txt" :=
        create_version_info_path cfg vf hV
      rw [← Except.ok.inj h, hpath]
      intro hmem
      rcases List.mem_append.mp hmem with h₂ | h₂
      · simp at h₂
      · revert h₂
        split <;> simp
  · rw [if_neg hw] at h
    by_cases hl : get_platform sp = "linux"
    · rw [if_pos hl] at h
      rcases hD : create_desktop_file cfg with e | df <;> rw [hD] at h
      · exact Except.noConfusion h
      · rw [← Except.ok.inj h]
        simp
    · rw [if_neg hl] at h
      rw [← Except.ok.inj h]
      simp

theorem hidden_part_no_windowed (imps : List JVal)
    (himps : JVal.str "--windowed" ∉ imps) :
    JVal.str "--windowed" ∉
      imps.foldr (fun imp acc => JVal.str "--hidden-import" :: imp :: acc) [] := by
  induction imps with
  | nil => simp
  | cons i t ih =>
    simp only [List.foldr_cons]
    intro hmem
    rcases List.mem_cons.mp hmem with h | hmem₂
    · simp at h
    · rcases List.mem_cons.mp hmem₂ with h | hmem₃
      · exact himps (by rw [h]; exact List.mem_cons_self i t)
      · exact ih (fun hc => himps (List.mem_cons_of_mem i hc)) hmem₃

theorem data_part_no_windowed (ps : List (JVal × JVal)) (sp : String) :
    JVal.str "--windowed" ∉
      ps.foldr (fun sd acc =>
        JVal.str "--add-data"
        :: JVal.str (pyStr sd.1 ++ os_pathsep sp ++ pyStr sd.2) :: acc) [] := by
  induction ps with
  | nil => simp
  | cons p t ih =>
    simp only [List.foldr_cons]
    intro hmem
    rcases List.mem_cons.mp hmem with h | hmem₂
    · simp at h
    · rcases List.mem_cons.mp hmem₂ with h | hmem₃
      · exact sep_append_ne (pyStr p.1) (pyStr p.2) sp (JVal.str.inj h).symm
      · exact ih hmem₃

/-- Claim C4 (counterexample): on a linux host with the built-in linux
defaults — whose console flag is `False` — the assembled argument list
does not contain `--windowed`; the flag is only ever added on windows and
macos hosts (shown by contrast for the macos defaults). -/
theorem windowed_flag_counterexample :
    pyGet (_default_config "linux") "console" = some (.bool false) ∧
    (assembleCmd "linux" (_default_config "linux")).toOption.map
      (hasTok "--windowed") = some false ∧
    (assembleCmd "darwin" (_default_config "darwin")).toOption.map
      (hasTok "--windowed") = some true :=
  ⟨rfl, rfl, rfl⟩

/-- Claim C4 (amended): provided no configured value is itself the literal
token `--windowed`, the assembled argument list contains `--windowed` iff
the host platform is windows or macos and the configuration's console flag
is not set to a truthy value; on linux the flag is never added. -/
theorem windowed_flag_iff (sp : String) (cfg : Dict) (cmd : List JVal)
    (hok : assembleCmd sp cfg = .ok cmd)
    (hname : pyGet cfg "app_name" ≠ some (.str "--windowed"))
    (hicon : pyGet cfg "icon_file" ≠ some (.str "--windowed"))
    (hbid : pyGet cfg "bundle_identifier" ≠ some (.str "--windowed"))
    (hms : pyGet cfg "main_script" ≠ some (.str "--windowed"))
    (hhi : ∀ hi imps, pyGet cfg "hidden_imports" = some hi →
      pyIterList hi = .ok imps → JVal.str "--windowed" ∉ imps) :
    JVal.str "--windowed" ∈ cmd ↔
      ((get_platform sp = "windows" ∨ get_platform sp = "macos") ∧
        pyTruthy ((pyGet cfg "console").getD (.bool false)) = false) := by
  unfold assembleCmd at hok
  rcases hN : pyIndex cfg "app_name" with e | appName <;> simp only [hN] at hok
  · exact Except.noConfusion hok
  rcases hP : prepare_platform_specific sp cfg with e | extra <;>
    simp only [hP] at hok
  · exact Except.noConfusion hok
  rcases hH : pyIndex cfg "hidden_imports" with e | hi <;>
    simp only [hH] at hok
  · exact Except.noConfusion hok
  rcases hIt : pyIterList hi with e | imps <;> simp only [hIt] at hok
  · exact Except.noConfusion hok
  rcases hAd : pyIndex cfg "additional_data" with e | ad <;>
    simp only [hAd] at hok
  · exact Except.noConfusion hok
  rcases hIt₂ : pyIterList ad with e | items <;> simp only [hIt₂] at hok
  · exact Except.noConfusion hok
  rcases hU : unpackPairs items with e | pairs <;> simp only [hU] at hok
  · exact Except.noConfusion hok
  rcases hM : pyIndex cfg "main_script" with e | ms <;> simp only [hM] at hok
  · exact Except.noConfusion hok
  have happ : JVal.str "--windowed" ≠ appName := by
    intro h
    apply hname
    rw [(pyIndex_ok_iff cfg "app_name" appName).mp hN, ← h]
  have hms₂ : JVal.str "--windowed" ≠ ms := by
    intro h
    apply hms
    rw [(pyIndex_ok_iff cfg "main_script" ms).mp hM, ← h]
  have hHid : JVal.str "--windowed" ∉
      imps.foldr (fun imp acc => JVal.str "--hidden-import" :: imp :: acc) [] :=
    hidden_part_no_windowed imps
      (hhi hi imps ((pyIndex_ok_iff cfg "hidden_imports" hi).mp hH) hIt)
  have hDat := data_part_no_windowed pairs sp
  have hPrep := prepare_no_windowed sp cfg extra hP
  by_cases hcond : (get_platform sp = "windows" ∨ get_platform sp = "macos")
      ∧ pyTruthy ((pyGet cfg "console").getD (.bool false)) = false
  · rw [if_pos hcond] at hok
    rcases hI : pyGet cfg "icon_file" with _ | iv <;> rw [hI] at hok
    · by_cases hm : get_platform sp = "macos"
      · rw [if_pos hm] at hok
        rcases hB : pyGet cfg "bundle_identifier" with _ | bv <;> rw [hB] at hok
        · simp only [Except.ok.injEq] at hok
          subst hok
          exact iff_of_true (by simp) hcond
        · simp only [Except.ok.injEq] at hok
          subst hok
          exact iff_of_true (by simp) hcond
      · rw [if_neg hm] at hok
        simp only [Except.ok.injEq] at hok
        subst hok
        exact iff_of_true (by simp) hcond
    · by_cases hm : get_platform sp = "macos"
      · rw [if_pos hm] at hok
        rcases hB : pyGet cfg "bundle_identifier" with _ | bv <;> rw [hB] at hok
        · simp only [Except.ok.injEq] at hok
          subst hok
          exact iff_of_true (by simp) hcond
        · simp only [Except.ok.injEq] at hok
          subst hok
          exact iff_of_true (by simp) hcond
      · rw [if_neg hm] at hok
        simp only [Except.ok.injEq] at hok
        subst hok
        exact iff_of_true (by simp) hcond
  · rw [if_neg hcond] at hok
    rcases hI : pyGet cfg "icon_file" with _ | iv
    · rw [hI] at hok
      by_cases hm : get_platform sp = "macos"
      · rw [if_pos hm] at hok
        rcases hB : pyGet cfg "bundle_identifier" with _ | bv <;> rw [hB] at hok
        · simp only [Except.ok.injEq] at hok
          subst hok
          exact iff_of_false (by simp [happ, hms₂, hHid, hDat, hPrep]) hcond
        · have hbv : JVal.str "--windowed" ≠ bv := by
            intro h
            apply hbid
            rw [hB, ← h]
          simp only [Except.ok.injEq] at hok
          subst hok
          exact iff_of_false (by simp [happ, hms₂, hHid, hDat, hPrep, hbv]) hcond
      · rw [if_neg hm] at hok
        simp only [Except.ok.injEq] at hok
        subst hok
        exact iff_of_false (by simp [happ, hms₂, hHid, hDat, hPrep]) hcond
    · have hiv : JVal.str "--windowed" ≠ iv := by
        intro h
        apply hicon
        rw [hI, ← h]
      rw [hI] at hok
      by_cases hm : get_platform sp = "macos"
      · rw [if_pos hm] at hok
        rcases hB : pyGet cfg "bundle_identifier" with _ | bv <;> rw [hB] at hok
        · simp only [Except.ok.injEq] at hok
          subst hok
          exact iff_of_false (by simp [happ, hms₂, hHid, hDat, hPrep, hiv]) hcond
        · have hbv : JVal.str "--windowed" ≠ bv := by
            intro h
            apply hbid
            rw [hB, ← h]
          simp only [Except.ok.injEq] at hok
          subst hok
          exact iff_of_false
            (by simp [happ, hms₂, hHid, hDat, hPrep, hiv, hbv]) hcond
      · rw [if_neg hm] at hok
        simp only [Except.ok.injEq] at hok
        subst hok
        exact iff_of_false (by simp [happ, hms₂, hHid, hDat, hPrep, hiv]) hcond

/-- Witness for `windowed_flag_iff`: on a windows host with the built-in
windows defaults (console `False`), the assembled list contains
`--windowed`. -/
theorem windowed_flag_iff_witness :
    (assembleCmd "win32" (_default_config "win32")).toOption.map
      (hasTok "--windowed") = some true := by
  have hok : assembleCmd "win32" (_default_config "win32")
      = .ok ((assembleCmd "win32" (_default_config "win32")).toOption.getD []) :=
    rfl
  have h := windowed_flag_iff "win32" (_default_config "win32")
    ((assembleCmd "win32" (_default_config "win32")).toOption.getD []) hok
    (by rw [show pyGet (_default_config "win32") "app_name"
          = some (.str "YourApp") from rfl]
        simp)
    (by rw [show pyGet (_default_config "win32") "icon_file"
          = some (.str "icons/app_icon.ico") from rfl]
        simp)
    (by rw [show pyGet (_default_config "win32") "bundle_identifier"
          = none from rfl]
        simp)
    (by rw [show pyGet (_default_config "win32") "main_script"
          = some (.str "main.py") from rfl]
        simp)
    (by intro hi imps h1 h2
        rw [show pyGet (_default_config "win32") "hidden_imports"
          = some (.arr []) from rfl] at h1
        cases Option.some.inj h1
        cases Except.ok.inj h2
        simp)
  have hmem := h.mpr ⟨Or.inl rfl, rfl⟩
  have htok := (hasTok_iff_mem "--windowed"
    ((assembleCmd "win32" (_default_config "win32")).toOption.getD [])).mpr hmem
  have hshape : (assembleCmd "win32" (_default_config "win32")).toOption.map
      (hasTok "--windowed")
      = some (hasTok "--windowed"
        ((assembleCmd "win32" (_default_config "win32")).toOption.getD [])) :=
    rfl
  rw [hshape, htok]

/-! ## Declarative characterisation of the signing-identity scan

`lineHashOver` and `lastHash` restate, directly from the structure of the
two loops, which hash ends up recorded for an identity class: the hash of
the last output line whose first matching label (in priority order) is
that class and which contains a 40-hex-character run. -/

/-- The hash one line contributes to identity class `c`, for label list
`L`: defined iff the line contains a 40-hex run and the first label of `L`
contained in the line is `c`. -/
def lineHashOver (L : List String) (c : String) (line : String) :
    Option String :=
  match findHex40 line.data with
  | some h =>
    if L.find? (fun l => substrB l line) = some c then some (String.mk h)
    else none
  | none => none

/-- The hash recorded for class `c` after all lines are scanned: the
contribution of the last contributing line. -/
def lastHash (c : String) (lines : List String) : Option String :=
  lines.foldl (fun acc line =>
    match lineHashOver identityLabels c line with
    | some h => some h
    | none => acc) none

theorem updateFirstLabel_hex_none (line : String)
    (hnone : findHex40 line.data = none)
    (ids : List (String × Option String)) :
    updateFirstLabel line ids = ids := by
  induction ids with
  | nil => rfl
  | cons p t ih =>
    obtain ⟨l, v⟩ := p
    simp only [updateFirstLabel, hnone]
    by_cases hs : substrB l line <;> simp [hs, ih]

theorem updateFirstLabel_map (line : String) (L : List String) (hN : L.Nodup)
    (g : String → Option String) :
    updateFirstLabel line (L.map (fun c => (c, g c))) =
      L.map (fun c => (c,
        match lineHashOver L c line with
        | some h => some h
        | none => g c)) := by
  induction L with
  | nil => rfl
  | cons d t ih =>
    have hd : d ∉ t := (List.nodup_cons.mp hN).1
    have hN₂ : t.Nodup := (List.nodup_cons.mp hN).2
    simp only [List.map_cons, updateFirstLabel]
    by_cases hs : substrB d line
    · rw [if_pos hs]
      cases hx : findHex40 line.data with
      | some h =>
        have hfind : (d :: t).find? (fun l => substrB l line) = some d :=
          List.find?_cons_of_pos _ hs
        refine congrArg₂ List.cons ?_ ?_
        · simp [lineHashOver, hx, hfind]
        · apply List.map_congr_left
          intro c hc
          have hne : ¬ (some d = some c) := by
            intro hcc
            exact hd (Option.some.inj hcc ▸ hc)
          simp [lineHashOver, hx, hfind, hne]
      | none =>
        rw [updateFirstLabel_hex_none line hx]
        simp [lineHashOver, hx]
    · rw [if_neg hs, ih hN₂]
      refine congrArg₂ List.cons ?_ ?_
      · cases hx : findHex40 line.data with
        | none => simp [lineHashOver, hx]
        | some h =>
          have hne : t.find? (fun l => substrB l line) ≠ some d := by
            intro hcc
            exact hd (List.mem_of_find?_eq_some hcc)
          simp [lineHashOver, hx, hs, hne]
      · apply List.map_congr_left
        intro c hc
        simp [lineHashOver, hs]

theorem scan_foldl_map (L : List String) (hN : L.Nodup) (lines : List String) :
    ∀ g : String → Option String,
      lines.foldl (fun ids line => updateFirstLabel line ids)
          (L.map (fun c => (c, g c))) =
        L.map (fun c => (c, lines.foldl (fun acc line =>
          match lineHashOver L c line with
          | some h => some h
          | none => acc) (g c))) := by
  induction lines with
  | nil => intro g; rfl
  | cons line rest ih =>
    intro g
    simp only [List.foldl_cons]
    rw [updateFirstLabel_map line L hN g, ih]

theorem findSome?_map_snd (L : List String) (f : String → Option String) :
    (L.map (fun c => (c, f c))).findSome? (fun p => p.2) = L.findSome? f := by
  induction L with
  | nil => rfl
  | cons d t ih =>
    simp only [List.map_cons, List.findSome?_cons]
    cases h : f d <;> simp [h, ih]

theorem scanIdentities_eq (lines : List String) :
    scanIdentities lines
      = identityLabels.map (fun c => (c, lastHash c lines)) := by
  unfold scanIdentities lastHash
  exact scan_foldl_map identityLabels (by decide) lines (fun _ => none)

theorem findHex40_spec (cs : List Char) (h : List Char)
    (hh : findHex40 cs = some h) :
    h.length = 40 ∧ h.all isHexUp = true := by
  induction cs with
  | nil => cases hh
  | cons c rest ih =>
    unfold findHex40 at hh
    by_cases hc : (((c :: rest).take 40).length == 40
        && ((c :: rest).take 40).all isHexUp) = true
    · rw [if_pos hc] at hh
      cases Option.some.inj hh
      have hc₂ := Bool.and_eq_true .. |>.mp hc
      exact ⟨by simpa using hc₂.1, hc₂.2⟩
    · rw [if_neg hc] at hh
      exact ih hh

theorem lastHash_aux (c : String) (lines : List String) :
    ∀ acc : Option String,
      (∀ a, acc = some a → a.length = 40 ∧ a.data.all isHexUp = true) →
      ∀ h, lines.foldl (fun acc line =>
        match lineHashOver identityLabels c line with
        | some hh => some hh
        | none => acc) acc = some h →
      h.length = 40 ∧ h.data.all isHexUp = true := by
  induction lines with
  | nil =>
    intro acc hacc h hfold
    exact hacc h hfold
  | cons line rest ih =>
    intro acc hacc h hfold
    simp only [List.foldl_cons] at hfold
    refine ih _ ?_ h hfold
    intro a ha
    cases hx : lineHashOver identityLabels c line with
    | some hh =>
      rw [hx] at ha
      cases Option.some.inj ha
      unfold lineHashOver at hx
      cases hfx : findHex40 line.data with
      | none =>
        simp only [hfx] at hx
        exact Option.noConfusion hx
      | some hcs =>
        simp only [hfx] at hx
        by_cases hfind :
            identityLabels.find? (fun l => substrB l line) = some c
        · rw [if_pos hfind] at hx
          have hspec := findHex40_spec line.data hcs hfx
          cases Option.some.inj hx
          exact ⟨hspec.1, hspec.2⟩
        · rw [if_neg hfind] at hx
          cases hx
    | none =>
      rw [hx] at ha
      exact hacc a ha

theorem lastHash_spec (c : String) (lines : List String) (h : String)
    (hl : lastHash c lines = some h) :
    h.length = 40 ∧ h.data.all isHexUp = true :=
  lastHash_aux c lines none (fun _ ha => Option.noConfusion ha) h hl

theorem lineHashOver_none (c line : String)
    (h : ∀ l ∈ identityLabels, substrB l line = false) :
    lineHashOver identityLabels c line = none := by
  unfold lineHashOver
  cases hfx : findHex40 line.data with
  | none => rfl
  | some hcs =>
    have hfind : identityLabels.find? (fun l => substrB l line) = none := by
      rw [List.find?_eq_none]
      intro l hl
      simp [h l hl]
    rw [hfind]
    simp

theorem lastHash_none (c : String) :
    ∀ lines : List String,
      (∀ line ∈ lines, ∀ l ∈ identityLabels, substrB l line = false) →
      lastHash c lines = none := by
  intro lines
  induction lines with
  | nil => intro h; rfl
  | cons line rest ih =>
    intro h
    unfold lastHash
    simp only [List.foldl_cons]
    rw [lineHashOver_none c line (h line (List.mem_cons_self line rest))]
    exact ih (fun li hli l hl => h li (List.mem_cons_of_mem line hli) l hl)

/-- Claim C7: the signing-identity resolution scans the output lines for
the four identity-class labels in priority order and returns the recorded
hash of the highest-priority class with a match (`lastHash` makes "the
class matched with this hash" precise); it returns the sentinel `"-"` when
the `security` invocation fails or when no line contains any of the four
labels; and any non-sentinel result is a 40-character `[A-F0-9]`
identifier. -/
theorem get_signing_identity_spec :
    get_signing_identity (.error ()) = "-" ∧
    (∀ lines, get_signing_identity (.ok lines) =
      match identityLabels.findSome? (fun c => lastHash c lines) with
      | some h => h
      | none => "-") ∧
    (∀ lines, (∀ line ∈ lines, ∀ l ∈ identityLabels, substrB l line = false) →
      get_signing_identity (.ok lines) = "-") ∧
    (∀ lines h, get_signing_identity (.ok lines) = h → h ≠ "-" →
      h.length = 40 ∧ h.data.all isHexUp = true) := by
  have key : ∀ lines, get_signing_identity (.ok lines) =
      match identityLabels.findSome? (fun c => lastHash c lines) with
      | some h => h
      | none => "-" := by
    intro lines
    simp only [get_signing_identity]
    rw [scanIdentities_eq, findSome?_map_snd]
  refine ⟨rfl, key, ?_, ?_⟩
  · intro lines hno
    rw [key]
    have hall : identityLabels.findSome? (fun c => lastHash c lines) = none :=
      List.findSome?_eq_none_iff.mpr
        (fun c _ => lastHash_none c lines hno)
    rw [hall]
  · intro lines h hres hne
    rw [key] at hres
    cases hfs : identityLabels.findSome? (fun c => lastHash c lines) with
    | none =>
      rw [hfs] at hres
      have hres₂ : "-" = h := hres
      exact absurd hres₂.symm hne
    | some a =>
      rw [hfs] at hres
      have hres₂ : a = h := hres
      obtain ⟨c, _hc, hch⟩ := List.exists_of_findSome?_eq_some hfs
      rw [← hres₂]
      exact lastHash_spec c lines a hch

/-- Witness for `get_signing_identity_spec`: output whose lines contain no
identity label resolves to the ad-hoc sentinel. -/
theorem get_signing_identity_spec_witness :
    get_signing_identity
      (.ok ["  0 valid identities found", "no such label here"]) = "-" :=
  get_signing_identity_spec.2.2.1
    ["  0 valid identities found", "no such label here"] (by decide)

end Build
